import Mathlib

/-!
Shallow embedding of the quota-aware rate-limited caching YouTube API client
(`backend/app/services/youtube_api.py`, `backend/app/utils/rate_limiter.py`,
`backend/app/utils/cache_manager.py`) and proofs about it.

Times (`datetime.now()` / `time.time()`) are modelled as natural numbers
(seconds); `timedelta(days=1)` is 86400.  Machine floats only occur in the
rate limiter's proportional refill `int((elapsed/60.0)*rate)`, which we model
as exact floored division `elapsed * rate / 60`; the capacity bounds proved
here are insensitive to the sub-token rounding difference.  Python `int`s are
modelled as `Int`.
-/

namespace YTCE

/-- A Python value, as far as the cache and orchestrator inspect one:
enough structure to express Python truthiness (`if cached_result:`). -/
inductive PyVal where
  | none
  | bool (b : Bool)
  | int (n : Int)
  | str (s : String)
  | list (xs : List PyVal)
  | dict (kvs : List (String × PyVal))

/-- Python truthiness of a `PyVal` (`bool(v)`): `None`, `False`, `0`, `""`,
`[]` and `{}` are falsy, everything else truthy. -/
def PyVal.truthy : PyVal → Bool
  | .none => false
  | .bool b => b
  | .int n => !(n == 0)
  | .str s => !(s == "")
  | .list xs => !xs.isEmpty
  | .dict kvs => !kvs.isEmpty

/-- `{'items': []}` — the empty result returned for absent sub-resources. -/
def emptyItems : PyVal := .dict [("items", .list [])]

/-! ### Rate limiter (`app/utils/rate_limiter.py`) -/

/-- `RateLimitConfig` dataclass. -/
structure RateLimitConfig where
  calls_per_minute : Nat := 100
  calls_per_hour : Nat := 1000
  burst_limit : Nat := 10

/-- Mutable state of `RateLimiter`: three token buckets with their last
refill timestamps, plus the monitoring list of grant timestamps. -/
structure RateLimiter where
  config : RateLimitConfig
  minute_tokens : Int
  minute_last_refill : Nat
  hour_tokens : Int
  hour_last_refill : Nat
  burst_tokens : Int
  burst_last_refill : Nat
  request_timestamps : List Nat

/-- `RateLimiter.__init__`: every bucket starts full. -/
def RateLimiter.init (cfg : RateLimitConfig) (t : Nat) : RateLimiter where
  config := cfg
  minute_tokens := cfg.calls_per_minute
  minute_last_refill := t
  hour_tokens := cfg.calls_per_hour
  hour_last_refill := t
  burst_tokens := cfg.burst_limit
  burst_last_refill := t
  request_timestamps := []

/-- `RateLimiter._refill_tokens`, at observation time `t` (monotone clock, so
elapsed time is the truncated difference `t - last_refill`).  Minute and hour
buckets refill proportionally (capped at capacity, floor division standing in
for the float product's truncation); past a full window they reset to
capacity.  The burst bucket only resets to capacity once a second has
elapsed. -/
def RateLimiter._refill_tokens (s : RateLimiter) (t : Nat) : RateLimiter :=
  let s :=
    let minute_elapsed := t - s.minute_last_refill
    if 60 ≤ minute_elapsed then
      { s with minute_tokens := s.config.calls_per_minute, minute_last_refill := t }
    else
      let tokens_to_add : Int := (minute_elapsed * s.config.calls_per_minute / 60 : Nat)
      let s := { s with
        minute_tokens := min (s.config.calls_per_minute : Int) (s.minute_tokens + tokens_to_add) }
      if 0 < tokens_to_add then { s with minute_last_refill := t } else s
  let s :=
    let hour_elapsed := t - s.hour_last_refill
    if 3600 ≤ hour_elapsed then
      { s with hour_tokens := s.config.calls_per_hour, hour_last_refill := t }
    else
      let tokens_to_add : Int := (hour_elapsed * s.config.calls_per_hour / 3600 : Nat)
      let s := { s with
        hour_tokens := min (s.config.calls_per_hour : Int) (s.hour_tokens + tokens_to_add) }
      if 0 < tokens_to_add then { s with hour_last_refill := t } else s
  let burst_elapsed := t - s.burst_last_refill
  if 1 ≤ burst_elapsed then
    { s with burst_tokens := s.config.burst_limit, burst_last_refill := t }
  else
    s

/-- One refill-check-deduct step, shared verbatim by `acquire`'s loop body and
`try_acquire`: refill all buckets, then deduct `tokens` from each bucket iff
all three simultaneously hold at least `tokens` (all-or-nothing admission).
Returns the new state and whether admission was granted. -/
def RateLimiter.tryStep (s : RateLimiter) (t : Nat) (tokens : Int) :
    RateLimiter × Bool :=
  let s := s._refill_tokens t
  if tokens ≤ s.minute_tokens ∧ tokens ≤ s.hour_tokens ∧ tokens ≤ s.burst_tokens then
    ({ s with
        minute_tokens := s.minute_tokens - tokens
        hour_tokens := s.hour_tokens - tokens
        burst_tokens := s.burst_tokens - tokens
        request_timestamps := (s.request_timestamps ++ [t]).filter (fun ts => t - 3600 < ts) },
      true)
  else
    (s, false)

/-- `RateLimiter.try_acquire`: a single non-blocking check-and-deduct.
(The source appends the grant timestamp without pruning; the monitoring list
plays no role in admission, so we reuse `tryStep`.) -/
def RateLimiter.try_acquire (s : RateLimiter) (t : Nat) (tokens : Int) :
    RateLimiter × Bool :=
  s.tryStep t tokens

/-- `RateLimiter.acquire`: the blocking loop `while True: refill; check;
deduct-or-sleep`.  `times` is the trace of wall-clock instants at which the
loop body runs; the Boolean is `true` iff admission was granted during the
trace.  The source loop has no failure exit: when the trace is exhausted the
call is still waiting (`false`), never rejected. -/
def RateLimiter.acquire (s : RateLimiter) (times : List Nat) (tokens : Int) :
    RateLimiter × Bool :=
  match times with
  | [] => (s, false)
  | t :: rest =>
    let r := s.tryStep t tokens
    if r.2 then (r.1, true) else r.1.acquire rest tokens

/-- Bucket bounds invariant: each bucket's available tokens lie between 0 and
its configured capacity. -/
def RateLimiter.Inv (s : RateLimiter) : Prop :=
  0 ≤ s.minute_tokens ∧ s.minute_tokens ≤ s.config.calls_per_minute ∧
  0 ≤ s.hour_tokens ∧ s.hour_tokens ≤ s.config.calls_per_hour ∧
  0 ≤ s.burst_tokens ∧ s.burst_tokens ≤ s.config.burst_limit

instance (s : RateLimiter) : Decidable s.Inv := by
  unfold RateLimiter.Inv; infer_instance

/-- An externally visible rate-limiter call: a (possibly blocking) `acquire`
with its loop-iteration time trace, or a `try_acquire` at one instant. -/
inductive RLEvent where
  | acq (times : List Nat) (tokens : Int)
  | tryAcq (t : Nat) (tokens : Int)

/-- The token count an event requests. -/
def RLEvent.tokens : RLEvent → Int
  | .acq _ n => n
  | .tryAcq _ n => n

/-- State reached after an event (the grant Boolean is discarded). -/
def RLEvent.run (s : RateLimiter) : RLEvent → RateLimiter
  | .acq times n => (s.acquire times n).1
  | .tryAcq t n => (s.try_acquire t n).1

/-- State reached after a sequence of rate-limiter calls. -/
def runRLEvents (s : RateLimiter) (es : List RLEvent) : RateLimiter :=
  es.foldl RLEvent.run s

/-! ### Cache manager (`app/utils/cache_manager.py`)

The Redis client is `None` in the source (`redis_client: Optional[Any] = None`,
`connect` leaves it `None`), so every `if self.redis_client and self.connected`
branch is dead and only the in-memory tier is modelled.  A Python dict is an
insertion-ordered map with unique keys; we model it as an association list
and keep the key-uniqueness invariant (`WF`) explicit. -/

/-- The relevant global `settings` fields, plus `md5hex`, which stands for the
(deterministic, external) `hashlib.md5(...).hexdigest()` function. -/
structure Env where
  enable_caching : Bool := true
  cache_ttl_seconds : Nat := 3600
  cache_max_size : Nat := 1000
  md5hex : String → String

/-- A memory-cache entry `{'value': ..., 'expires_at': ...}`. -/
structure CacheEntry where
  value : PyVal
  expires_at : Nat

/-- `CacheManager` state: the in-memory tier `memory_cache` dict. -/
structure CacheManager where
  memory_cache : List (String × CacheEntry)

/-- A fresh `CacheManager` (empty dict). -/
def CacheManager.init : CacheManager := ⟨[]⟩

/-- Key uniqueness: the dict invariant of `memory_cache`. -/
def CacheManager.WF (c : CacheManager) : Prop :=
  (c.memory_cache.map Prod.fst).Nodup

instance (c : CacheManager) : Decidable c.WF := by
  unfold CacheManager.WF; infer_instance

/-- `CacheManager._generate_cache_key`: prefix with `"ytce:"`, md5-hashing
logical keys longer than 200 characters first. -/
def _generate_cache_key (env : Env) (key : String) : String :=
  "ytce:" ++ (if 200 < key.length then env.md5hex key else key)

/-- Sort order used by `_cleanup_memory_cache`: soonest expiry first
(`key=lambda x: x[1]['expires_at']`). -/
def entryLE (a b : String × CacheEntry) : Prop :=
  a.2.expires_at ≤ b.2.expires_at

instance : DecidableRel entryLE := fun a b => Nat.decLe a.2.expires_at b.2.expires_at

instance : IsTotal (String × CacheEntry) entryLE :=
  ⟨fun a b => Nat.le_total a.2.expires_at b.2.expires_at⟩

instance : IsTrans (String × CacheEntry) entryLE :=
  ⟨fun _ _ _ h h' => Nat.le_trans h h'⟩

/-- `CacheManager._cleanup_memory_cache`: drop individually expired entries;
then, if the tier is still at or above `cache_max_size`, stably sort the
entries by `expires_at` and delete the first `len - max + 1` of them from the
dict.  Deleting a set of distinct keys from a dict equals filtering them out
in place, which is how the per-key `del` loop is rendered here.  The second
component is the list of evicted (non-expired) entries, returned for
specification purposes. -/
def CacheManager._cleanup_memory_cache (env : Env) (c : CacheManager) (now : Nat) :
    CacheManager × List (String × CacheEntry) :=
  let live := c.memory_cache.filter (fun kv => decide (now < kv.2.expires_at))
  if env.cache_max_size ≤ live.length then
    let sorted_items := live.insertionSort entryLE
    let items_to_remove := live.length - env.cache_max_size + 1
    let evicted := sorted_items.take items_to_remove
    let evictKeys := evicted.map Prod.fst
    (⟨live.filter (fun kv => !(evictKeys.contains kv.1))⟩, evicted)
  else
    (⟨live⟩, [])

/-- Dict assignment `d[k] = e`: overwrite in place if the key is present
(keeping its position, as Python dicts do), else append. -/
def assocSet (l : List (String × CacheEntry)) (k : String) (e : CacheEntry) :
    List (String × CacheEntry) :=
  if l.any (fun kv => kv.1 == k) then
    l.map (fun kv => if kv.1 == k then (k, e) else kv)
  else
    l ++ [(k, e)]

/-- `CacheManager.set`: no-op when caching is disabled; otherwise derive the
prefixed key, apply `ttl or self.default_ttl` (so a literal `0` also falls
back to the default), run the cleanup, and store the entry with
`expires_at = now + ttl`. -/
def CacheManager.set (env : Env) (c : CacheManager) (now : Nat) (key : String)
    (value : PyVal) (ttl : Option Nat) : CacheManager × Bool :=
  if !env.enable_caching then (c, false)
  else
    let cache_key := _generate_cache_key env key
    let ttlEff := match ttl with
      | some t => if t = 0 then env.cache_ttl_seconds else t
      | Option.none => env.cache_ttl_seconds
    let c1 := (CacheManager._cleanup_memory_cache env c now).1
    (⟨assocSet c1.memory_cache cache_key ⟨value, now + ttlEff⟩⟩, true)

/-- `CacheManager.get`: `default=None` when caching is disabled or the key is
absent; a present entry is returned only while `now < expires_at`, and an
expired entry is deleted on access (lazy reaping) with `None` returned. -/
def CacheManager.get (env : Env) (c : CacheManager) (now : Nat) (key : String) :
    CacheManager × Option PyVal :=
  if !env.enable_caching then (c, Option.none)
  else
    let cache_key := _generate_cache_key env key
    match c.memory_cache.lookup cache_key with
    | some entry =>
      if now < entry.expires_at then (c, some entry.value)
      else (⟨c.memory_cache.eraseP (fun kv => kv.1 == cache_key)⟩, Option.none)
    | Option.none => (c, Option.none)

/-- One `set` call with its arguments, for sequencing. -/
structure SetOp where
  now : Nat
  key : String
  value : PyVal
  ttl : Option Nat

/-- State reached after a sequence of `set` calls. -/
def runSets (env : Env) (c : CacheManager) (ops : List SetOp) : CacheManager :=
  ops.foldl (fun c op => (CacheManager.set env c op.now op.key op.value op.ttl).1) c

/-! ### String helpers for Python `"pat" in s.lower()` -/

/-- `needle` is a prefix of `hay` (character lists). -/
def startsWithChars : List Char → List Char → Bool
  | [], _ => true
  | _ :: _, [] => false
  | c :: cs, d :: ds => c == d && startsWithChars cs ds

/-- `needle` occurs as a contiguous sublist of `hay`. -/
def hasSubChars (needle : List Char) : List Char → Bool
  | [] => needle.isEmpty
  | d :: ds => startsWithChars needle (d :: ds) || hasSubChars needle ds

/-- Python `pat in s.lower()` for an ASCII pattern. -/
def lowerHas (s pat : String) : Bool :=
  hasSubChars pat.data (s.data.map Char.toLower)

/-! ### Errors of the wrapper (`app/services/youtube_api.py`) -/

/-- The wrapper's exception hierarchy: `QuotaExceededException` is a subclass
of `YouTubeAPIError`, so a value of this type is what an
`except YouTubeAPIError` clause catches. -/
inductive YTErr where
  | quotaExceeded (msg : String)
  | apiError (msg : String)

/-- `str(e)` of a wrapper exception: its message. -/
def YTErr.message : YTErr → String
  | .quotaExceeded m => m
  | .apiError m => m

/-- A provider `HttpError`: HTTP status and decoded error content. -/
structure HttpError where
  status : Nat
  content : String

/-- The `except HttpError` classification in `_make_request`: 403 with
`"quota"` in the content becomes `QuotaExceededException`, other 403s,
400, 404 and everything else become `YouTubeAPIError`s with status-specific
messages. -/
def classifyHttpError (e : HttpError) : YTErr :=
  if e.status = 403 then
    if lowerHas e.content "quota" then .quotaExceeded "API quota exceeded"
    else .apiError ("API access forbidden: " ++ e.content)
  else if e.status = 400 then .apiError ("Bad request: " ++ e.content)
  else if e.status = 404 then .apiError ("Resource not found: " ++ e.content)
  else .apiError ("API error " ++ toString e.status ++ ": " ++ e.content)

/-! ### Quota tracking and the orchestrator pipeline -/

/-- `YouTubeAPIWrapper` mutable state: quota bookkeeping plus the owned
rate limiter and cache manager. -/
structure Wrapper where
  quota_used : Int
  quota_reset_time : Nat
  quota_limit : Int
  rl : RateLimiter
  cache : CacheManager

/-- `self.operation_costs` dict. -/
def operation_costs : List (String × Int) :=
  [("search", 100), ("videos", 1), ("channels", 1), ("comments", 1), ("captions", 200)]

/-- `self.operation_costs.get(operation, 1)`. -/
def operationCost (op : String) : Int :=
  (operation_costs.lookup op).getD 1

/-- One day (`timedelta(days=1)`) in seconds. -/
def oneDay : Nat := 86400

/-- `YouTubeAPIWrapper._check_quota` at time `now` (standing for both
`datetime.now()` calls in the body): reset the window if `now` is strictly
past `quota_reset_time`, then raise `QuotaExceededException` iff
`quota_used + cost > quota_limit`.  No cost is deducted here. -/
def Wrapper._check_quota (w : Wrapper) (now : Nat) (op : String) :
    Wrapper × Except YTErr Unit :=
  let cost := operationCost op
  let w :=
    if w.quota_reset_time < now then
      { w with quota_used := 0, quota_reset_time := now + oneDay }
    else w
  if w.quota_limit < w.quota_used + cost then
    (w, .error (.quotaExceeded "Daily quota limit exceeded"))
  else
    (w, .ok ())

/-- `YouTubeAPIWrapper._update_quota`: add the operation's cost. -/
def Wrapper._update_quota (w : Wrapper) (op : String) : Wrapper :=
  { w with quota_used := w.quota_used + operationCost op }

/-- How a `_make_request` call ended. -/
inductive MROutcome where
  | hit (v : PyVal)          -- returned a truthy cached value
  | quotaError (e : YTErr)   -- `_check_quota` raised before the limiter ran
  | blocked                  -- still waiting inside `rate_limiter.acquire`
  | ok (v : PyVal)           -- upstream call succeeded
  | err (e : YTErr)          -- upstream call failed, classified and re-raised

/-- Result of a `_make_request` call: final wrapper state, outcome, and
whether `request_func.execute()` ran. -/
structure MRResult where
  w : Wrapper
  outcome : MROutcome
  upstreamCalled : Bool

/-- Step (1)-(2) of the pipeline: the initial cache consultation.  Returns the
(possibly reaped) cache and the raw `cache_manager.get` result. -/
def cacheLookup (env : Env) (c : CacheManager) (now : Nat) (cache_key : Option String) :
    CacheManager × Option PyVal :=
  match cache_key with
  | some k =>
    if env.enable_caching then CacheManager.get env c now k else (c, Option.none)
  | Option.none => (c, Option.none)

/-- The pipeline from the quota check on (shared by both cache-miss paths of
`_make_request`). -/
def Wrapper.mrAfterCache (env : Env) (w : Wrapper) (now : Nat) (rlTimes : List Nat)
    (request_exec : Except HttpError PyVal) (op : String) (cache_key : Option String) :
    MRResult :=
  match Wrapper._check_quota w now op with
  | (w, .error e) => ⟨w, .quotaError e, false⟩
  | (w, .ok ()) =>
    let (rl', granted) := w.rl.acquire rlTimes 1
    let w := { w with rl := rl' }
    if granted then
      match request_exec with
      | .ok result =>
        let w := w._update_quota op
        let w :=
          match cache_key with
          | some k =>
            if env.enable_caching then
              { w with
                cache := (CacheManager.set env w.cache now k result
                  (some env.cache_ttl_seconds)).1 }
            else w
          | Option.none => w
        ⟨w, .ok result, true⟩
      | .error he => ⟨w, .err (classifyHttpError he), true⟩
    else
      ⟨w, .blocked, false⟩

/-- `YouTubeAPIWrapper._make_request` at time `now` (a single timestamp
standing for the `datetime.now()` calls within one invocation).
`rlTimes` is the wall-clock trace for the rate limiter's blocking loop and
`request_exec` the one-shot result of `request_func.execute()`.
Pipeline: cache check (a hit only if the cached value is truthy:
`if cached_result:`), quota check, `rate_limiter.acquire()` for one token,
execute, `_update_quota`, re-cache with `ttl=settings.cache_ttl_seconds`. -/
def Wrapper._make_request (env : Env) (w : Wrapper) (now : Nat) (rlTimes : List Nat)
    (request_exec : Except HttpError PyVal) (op : String) (cache_key : Option String) :
    MRResult :=
  let (c1, cached_result) := cacheLookup env w.cache now cache_key
  let w := { w with cache := c1 }
  match cached_result with
  | some v =>
    if v.truthy then ⟨w, .hit v, false⟩
    else Wrapper.mrAfterCache env w now rlTimes request_exec op cache_key
  | Option.none => Wrapper.mrAfterCache env w now rlTimes request_exec op cache_key

/-! ### Claim-specific operation wrappers -/

/-- The cache-key expression of `YouTubeAPIWrapper.search_videos`:
`f"search:{hash(f'{query}:{max_results}:...')}"`.  Python's built-in `hash`
on a `str` depends on the per-process hash seed (`PYTHONHASHSEED`), so the
process's string-hash function is an explicit parameter `pyhash`; the
stringified optional parameters are passed as the strings `str()` produces. -/
def search_videos_cache_key (pyhash : String → Int) (query : String)
    (max_results : Int) (order published_after published_before region_code
    language content_type : String) : String :=
  "search:" ++ toString (pyhash
    (query ++ ":" ++ toString max_results ++ ":" ++ order ++ ":" ++
      published_after ++ ":" ++ published_before ++ ":" ++ region_code ++ ":" ++
      language ++ ":" ++ content_type))

/-- The `except YouTubeAPIError` handler of
`YouTubeAPIWrapper.get_video_comments`, applied to the `_make_request`
outcome: the error is converted to `{'items': []}` exactly when `str(e)`
lowercased contains `"disabled"` or `"not found"`; otherwise it is
re-raised. -/
def get_video_comments_result (r : Except YTErr PyVal) : Except YTErr PyVal :=
  match r with
  | .ok v => .ok v
  | .error e =>
    if lowerHas e.message "disabled" || lowerHas e.message "not found" then
      .ok emptyItems
    else .error e

/-- The `except YouTubeAPIError` handler of
`YouTubeAPIWrapper.get_video_captions`: every `YouTubeAPIError` (including
`QuotaExceededException`, its subclass) is converted to `{'items': []}`. -/
def get_video_captions_result (r : Except YTErr PyVal) : Except YTErr PyVal :=
  match r with
  | .ok v => .ok v
  | .error _ => .ok emptyItems

/-- The `range(0, len(video_ids), 50)` chunking of
`batch_get_video_details`, fuelled by the list length so that it is
structurally recursive. -/
def chunks50Aux : Nat → List String → List (List String)
  | 0, _ => []
  | _, [] => []
  | fuel + 1, l => l.take 50 :: chunks50Aux fuel (l.drop 50)

/-- `[video_ids[i:i+50] for i in range(0, len(video_ids), 50)]`. -/
def chunks50 (l : List String) : List (List String) :=
  chunks50Aux l.length l

/-- `YouTubeAPIWrapper.get_video_details` viewed through its orchestration
effect: an empty ID list returns `{'items': []}` without any orchestrated
call; otherwise the first 50 IDs (`video_ids[:50]`) are sent in one
orchestrated call.  `call c` stands for the `items` of the orchestrated
response for chunk `c`; the first component counts orchestrated calls. -/
def get_video_details (call : List String → List PyVal) (video_ids : List String) :
    Nat × List PyVal :=
  if video_ids.isEmpty then (0, [])
  else (1, call (video_ids.take 50))

/-- `YouTubeAPIWrapper.batch_get_video_details`: chunk the IDs by 50, call
`get_video_details` per chunk, concatenate the returned `items` in chunk
order (counting orchestrated calls). -/
def batch_get_video_details (call : List String → List PyVal)
    (video_ids : List String) : Nat × List PyVal :=
  (chunks50 video_ids).foldl
    (fun acc batch_ids =>
      let r := get_video_details call batch_ids
      (acc.1 + r.1, acc.2 ++ r.2))
    (0, [])

/-! ### Shared concrete instances for witnesses -/

/-- The default `RateLimitConfig()`. -/
def cfg0 : RateLimitConfig := {}

/-- A freshly constructed rate limiter at time 0. -/
def rl0 : RateLimiter := RateLimiter.init cfg0 0

/-- Default settings with a trivial stand-in digest function. -/
def env0 : Env := { md5hex := fun _ => "" }

/-- A wrapper at 9950/10000 quota, window not yet due (reset at `2*oneDay`). -/
def w9950 : Wrapper :=
  { quota_used := 9950, quota_reset_time := 2 * oneDay, quota_limit := 10000,
    rl := rl0, cache := CacheManager.init }

/-- A wrapper whose quota window deadline (100) is already in the past. -/
def wLate : Wrapper :=
  { quota_used := 5, quota_reset_time := 100, quota_limit := 10000,
    rl := rl0, cache := CacheManager.init }

/-! ### Quota semantics -/

/-- The quota usage visible to the limit comparison once a due window reset
has been applied: `0` if `now` is strictly past `quota_reset_time`, else the
accumulated `quota_used`. -/
def Wrapper.postResetUsed (w : Wrapper) (now : Nat) : Int :=
  if w.quota_reset_time < now then 0 else w.quota_used

theorem check_quota_fst (w : Wrapper) (now : Nat) (op : String) :
    (w._check_quota now op).1 =
      if w.quota_reset_time < now then
        { w with quota_used := 0, quota_reset_time := now + oneDay }
      else w := by
  unfold Wrapper._check_quota
  dsimp only
  split_ifs <;> rfl

theorem check_quota_raises_iff (w : Wrapper) (now : Nat) (op : String) :
    ((w._check_quota now op).2 = Except.error (YTErr.quotaExceeded "Daily quota limit exceeded"))
      ↔ w.quota_limit < w.postResetUsed now + operationCost op := by
  unfold Wrapper._check_quota Wrapper.postResetUsed
  dsimp only
  split_ifs <;> simp_all

theorem check_quota_used (w : Wrapper) (now : Nat) (op : String) :
    (w._check_quota now op).1.quota_used = w.postResetUsed now := by
  rw [check_quota_fst]
  unfold Wrapper.postResetUsed
  split_ifs <;> rfl

theorem check_quota_rl (w : Wrapper) (now : Nat) (op : String) :
    (w._check_quota now op).1.rl = w.rl := by
  rw [check_quota_fst]; split_ifs <;> rfl

theorem check_quota_limit (w : Wrapper) (now : Nat) (op : String) :
    (w._check_quota now op).1.quota_limit = w.quota_limit := by
  rw [check_quota_fst]; split_ifs <;> rfl

theorem postResetUsed_cache (w : Wrapper) (c : CacheManager) (now : Nat) :
    Wrapper.postResetUsed { w with cache := c } now = w.postResetUsed now := rfl

/-- Quota bookkeeping of the post-cache pipeline: never a cache hit; the cost
is added exactly on upstream success, and every other exit leaves
`quota_used` at its (window-reset-adjusted) input value. -/
theorem mrAfterCache_used (env : Env) (w : Wrapper) (now : Nat) (rlTimes : List Nat)
    (req : Except HttpError PyVal) (op : String) (ck : Option String) :
    (∀ v, (Wrapper.mrAfterCache env w now rlTimes req op ck).outcome ≠ MROutcome.hit v)
    ∧ (∀ v, (Wrapper.mrAfterCache env w now rlTimes req op ck).outcome = MROutcome.ok v →
        (Wrapper.mrAfterCache env w now rlTimes req op ck).w.quota_used
          = w.postResetUsed now + operationCost op)
    ∧ ((∀ v, (Wrapper.mrAfterCache env w now rlTimes req op ck).outcome ≠ MROutcome.ok v) →
        (Wrapper.mrAfterCache env w now rlTimes req op ck).w.quota_used
          = w.postResetUsed now) := by
  rcases hcq : w._check_quota now op with ⟨w1, r⟩
  have hused : w1.quota_used = w.postResetUsed now := by
    have h := check_quota_used w now op
    rw [hcq] at h
    exact h
  unfold Wrapper.mrAfterCache
  rw [hcq]
  cases r with
  | error e => simp [hused]
  | ok u =>
    cases u
    rcases hacq : w1.rl.acquire rlTimes 1 with ⟨rl2, g⟩
    simp only [hacq]
    cases g with
    | false => simp [hused]
    | true =>
      cases req with
      | error he => simp [hused]
      | ok result =>
        cases ck with
        | none => simp [Wrapper._update_quota, hused]
        | some k =>
          by_cases hec : env.enable_caching <;>
            simp [Wrapper._update_quota, hused, hec]

/-- Quota bookkeeping of the full `_make_request` pipeline, by outcome. -/
theorem make_request_used (env : Env) (w : Wrapper) (now : Nat) (rlTimes : List Nat)
    (req : Except HttpError PyVal) (op : String) (ck : Option String) :
    (∀ v, (Wrapper._make_request env w now rlTimes req op ck).outcome = MROutcome.hit v →
        (Wrapper._make_request env w now rlTimes req op ck).w.quota_used = w.quota_used)
    ∧ (∀ v, (Wrapper._make_request env w now rlTimes req op ck).outcome = MROutcome.ok v →
        (Wrapper._make_request env w now rlTimes req op ck).w.quota_used
          = w.postResetUsed now + operationCost op)
    ∧ ((∀ v, (Wrapper._make_request env w now rlTimes req op ck).outcome ≠ MROutcome.ok v) →
       (∀ v, (Wrapper._make_request env w now rlTimes req op ck).outcome ≠ MROutcome.hit v) →
        (Wrapper._make_request env w now rlTimes req op ck).w.quota_used
          = w.postResetUsed now) := by
  rcases hcl : cacheLookup env w.cache now ck with ⟨c1, res⟩
  have hmac := mrAfterCache_used env { w with cache := c1 } now rlTimes req op ck
  rw [postResetUsed_cache] at hmac
  unfold Wrapper._make_request
  rw [hcl]
  cases res with
  | none =>
    refine ⟨fun v hv => absurd hv (hmac.1 v), fun v hv => hmac.2.1 v hv, fun h _ => hmac.2.2 h⟩
  | some v =>
    by_cases ht : v.truthy
    · simp [ht]
    · simp only [ht, if_neg, Bool.false_eq_true]
      refine ⟨fun u hu => absurd hu (hmac.1 u), fun u hu => hmac.2.1 u hu, fun h _ => hmac.2.2 h⟩

/-- C2: the quota check raises `QuotaExceededException` exactly when the
(window-reset-adjusted) usage plus the operation's cost exceeds the limit;
raising deducts nothing, and across the whole `_make_request` pipeline
`quota_used` grows by the cost exactly on a confirmed upstream success. -/
theorem quota_check_exact_gate (w : Wrapper) (now : Nat) (op : String) :
    (((w._check_quota now op).2
        = Except.error (YTErr.quotaExceeded "Daily quota limit exceeded"))
      ↔ w.quota_limit < w.postResetUsed now + operationCost op)
    ∧ (w._check_quota now op).1.quota_used = w.postResetUsed now
    ∧ (∀ env rlTimes req ck v,
        (Wrapper._make_request env w now rlTimes req op ck).outcome = MROutcome.ok v →
        (Wrapper._make_request env w now rlTimes req op ck).w.quota_used
          = w.postResetUsed now + operationCost op)
    ∧ (∀ env rlTimes req ck,
        (∀ v, (Wrapper._make_request env w now rlTimes req op ck).outcome ≠ MROutcome.ok v) →
        (∀ v, (Wrapper._make_request env w now rlTimes req op ck).outcome ≠ MROutcome.hit v) →
        (Wrapper._make_request env w now rlTimes req op ck).w.quota_used
          = w.postResetUsed now) := by
  refine ⟨check_quota_raises_iff w now op, check_quota_used w now op, ?_, ?_⟩
  · intro env rlTimes req ck v hv
    exact (make_request_used env w now rlTimes req op ck).2.1 v hv
  · intro env rlTimes req ck h1 h2
    exact (make_request_used env w now rlTimes req op ck).2.2 h1 h2

theorem quota_check_exact_gate_witness :
    (Wrapper._check_quota w9950 5 "search").2
        = Except.error (YTErr.quotaExceeded "Daily quota limit exceeded")
    ∧ (Wrapper._check_quota w9950 5 "search").1.quota_used = 9950 := by
  have h := quota_check_exact_gate w9950 5 "search"
  exact ⟨h.1.mpr (by decide), h.2.1.trans (by decide)⟩

/-- C4 counterexample: at a check past the deadline (`reset_time = 100`,
`now = 200`), the code sets the new deadline to `now + oneDay`, which is not
the old deadline advanced by exactly one window. -/
theorem quota_reset_not_exact_window_advance :
    wLate.quota_reset_time < 200
    ∧ (Wrapper._check_quota wLate 200 "videos").1.quota_reset_time = 200 + oneDay
    ∧ (Wrapper._check_quota wLate 200 "videos").1.quota_reset_time
        ≠ wLate.quota_reset_time + oneDay := by
  decide

/-- C4 (amended): a quota check strictly past `quota_reset_time` zeroes
`quota_used` and sets the new deadline to the check time plus one window
(`now + oneDay`), so the advance depends on how late the check occurs. -/
theorem quota_reset_sets_now_plus_window (w : Wrapper) (now : Nat) (op : String)
    (h : w.quota_reset_time < now) :
    (w._check_quota now op).1.quota_used = 0
    ∧ (w._check_quota now op).1.quota_reset_time = now + oneDay := by
  simp [check_quota_fst, if_pos h]

theorem quota_reset_sets_now_plus_window_witness :
    (Wrapper._check_quota wLate 200 "videos").1.quota_used = 0
    ∧ (Wrapper._check_quota wLate 200 "videos").1.quota_reset_time = 200 + oneDay :=
  quota_reset_sets_now_plus_window wLate 200 "videos" (by decide)

/-- C6: the `search_videos` cache key is a function of the process's string
hash: two processes whose `hash` differs (e.g. two `PYTHONHASHSEED` values)
derive different cache keys for the same logical request. -/
theorem search_cache_key_process_dependent :
    search_videos_cache_key (fun _ => 0) "python" 50 "relevance" "None" "None" "None"
        "None" "None"
      ≠ search_videos_cache_key (fun _ => 1) "python" 50 "relevance" "None" "None" "None"
        "None" "None" := by
  decide

/-! ### Sub-resource error handling (comments / captions) -/

theorem startsWithChars_append (needle hay rest : List Char)
    (h : startsWithChars needle hay = true) :
    startsWithChars needle (hay ++ rest) = true := by
  induction needle generalizing hay with
  | nil => rfl
  | cons c cs ih =>
    cases hay with
    | nil => exact absurd h (by simp [startsWithChars])
    | cons d ds =>
      simp only [startsWithChars, Bool.and_eq_true] at h ⊢
      exact ⟨h.1, ih ds h.2⟩

theorem hasSubChars_append_left (needle a b : List Char)
    (h : hasSubChars needle a = true) :
    hasSubChars needle (a ++ b) = true := by
  induction a with
  | nil =>
    simp only [hasSubChars, List.isEmpty_iff] at h
    subst h
    cases b with
    | nil => rfl
    | cons d ds => simp [hasSubChars, startsWithChars]
  | cons d ds ih =>
    simp only [hasSubChars, Bool.or_eq_true] at h ⊢
    rcases h with h | h
    · exact Or.inl (by simpa using startsWithChars_append needle (d :: ds) b h)
    · exact Or.inr (ih h)

theorem lowerHas_append_left (a b pat : String) (h : lowerHas a pat = true) :
    lowerHas (a ++ b) pat = true := by
  unfold lowerHas at *
  have hd : (a ++ b).data = a.data ++ b.data := rfl
  rw [hd, List.map_append]
  exact hasSubChars_append_left _ _ _ h

/-- C8 counterexample: for captions, a quota error (message `"API quota
exceeded"`, which indicates neither absence nor disablement) is converted to
the empty result instead of propagating. -/
theorem captions_swallow_quota_error :
    get_video_captions_result (Except.error (YTErr.quotaExceeded "API quota exceeded"))
      = Except.ok emptyItems
    ∧ get_video_captions_result (Except.error (YTErr.quotaExceeded "API quota exceeded"))
      ≠ Except.error (YTErr.quotaExceeded "API quota exceeded") :=
  ⟨rfl, fun h => Except.noConfusion h⟩

/-- C8 (amended): for comments, an error is softened to `{'items': []}`
exactly when its message (lowercased) contains `"disabled"` or `"not found"`
— so provider 404s are always soft, while quota and credential errors
propagate; for captions, every `YouTubeAPIError` (quota and credential errors
included) is softened to the empty result. -/
theorem sub_resource_soft_error_policy (e : YTErr) (v : PyVal) (he : HttpError) :
    get_video_captions_result (Except.error e) = Except.ok emptyItems
    ∧ get_video_captions_result (Except.ok v) = Except.ok v
    ∧ get_video_comments_result (Except.ok v) = Except.ok v
    ∧ get_video_comments_result (Except.error e)
        = (if lowerHas e.message "disabled" || lowerHas e.message "not found" then
            Except.ok emptyItems
          else Except.error e)
    ∧ get_video_captions_result (Except.error (classifyHttpError he)) = Except.ok emptyItems
    ∧ (∀ content : String,
        get_video_comments_result
            (Except.error (classifyHttpError ⟨404, content⟩))
          = Except.ok emptyItems)
    ∧ get_video_comments_result (Except.error (YTErr.quotaExceeded "API quota exceeded"))
        = Except.error (YTErr.quotaExceeded "API quota exceeded")
    ∧ get_video_comments_result
          (Except.error (YTErr.apiError "API access forbidden: bad credentials"))
        = Except.error (YTErr.apiError "API access forbidden: bad credentials") := by
  refine ⟨rfl, rfl, rfl, rfl, rfl, ?_, rfl, rfl⟩
  intro content
  have hnf : lowerHas ("Resource not found: " ++ content) "not found" = true :=
    lowerHas_append_left "Resource not found: " content "not found" (by decide)
  unfold get_video_comments_result classifyHttpError
  simp [YTErr.message, hnf]

theorem sub_resource_soft_error_policy_witness :
    get_video_captions_result
        (Except.error (YTErr.apiError "Bad request: malformed id"))
      = Except.ok emptyItems
    ∧ get_video_comments_result
        (Except.error (classifyHttpError ⟨404, "video gone"⟩))
      = Except.ok emptyItems :=
  ⟨(sub_resource_soft_error_policy (YTErr.apiError "Bad request: malformed id")
      PyVal.none ⟨404, "video gone"⟩).1,
    (sub_resource_soft_error_policy (YTErr.apiError "x") PyVal.none
      ⟨404, "video gone"⟩).2.2.2.2.2.1 "video gone"⟩

/-! ### Pipeline ordering lemmas -/

theorem check_quota_snd_eq (w : Wrapper) (now : Nat) (op : String) :
    (w._check_quota now op).2 =
      if w.quota_limit < w.postResetUsed now + operationCost op then
        Except.error (YTErr.quotaExceeded "Daily quota limit exceeded")
      else Except.ok () := by
  unfold Wrapper._check_quota Wrapper.postResetUsed
  dsimp only
  split_ifs <;> simp_all

theorem mrAfterCache_quota_fail (env : Env) (w : Wrapper) (now : Nat)
    (rlTimes : List Nat) (req : Except HttpError PyVal) (op : String) (ck : Option String)
    (hQ : w.quota_limit < w.postResetUsed now + operationCost op) :
    Wrapper.mrAfterCache env w now rlTimes req op ck
      = ⟨(w._check_quota now op).1,
          MROutcome.quotaError (YTErr.quotaExceeded "Daily quota limit exceeded"), false⟩ := by
  have hsnd := check_quota_snd_eq w now op
  rw [if_pos hQ] at hsnd
  rcases hcq : w._check_quota now op with ⟨w1, r⟩
  rw [hcq] at hsnd
  cases hsnd
  unfold Wrapper.mrAfterCache
  rw [hcq]

theorem mrAfterCache_success (env : Env) (w : Wrapper) (now : Nat) (rlTimes : List Nat)
    (v : PyVal) (op : String) (k : String)
    (hQ : ¬ w.quota_limit < w.postResetUsed now + operationCost op)
    (hRL : (w.rl.acquire rlTimes 1).2 = true) :
    (Wrapper.mrAfterCache env w now rlTimes (Except.ok v) op (some k)).outcome
        = MROutcome.ok v
    ∧ (Wrapper.mrAfterCache env w now rlTimes (Except.ok v) op (some k)).upstreamCalled
        = true
    ∧ (env.enable_caching = true →
        (Wrapper.mrAfterCache env w now rlTimes (Except.ok v) op (some k)).w.cache
          = (CacheManager.set env (w._check_quota now op).1.cache now k v
              (some env.cache_ttl_seconds)).1) := by
  have hsnd := check_quota_snd_eq w now op
  rw [if_neg hQ] at hsnd
  rcases hcq : w._check_quota now op with ⟨w1, r⟩
  rw [hcq] at hsnd
  cases hsnd
  have hrl1 : w1.rl = w.rl := by
    have h := check_quota_rl w now op
    rw [hcq] at h
    exact h
  unfold Wrapper.mrAfterCache
  rw [hcq]
  rcases hacq : w1.rl.acquire rlTimes 1 with ⟨rl2, g⟩
  have hg : g = true := by
    have h2 : (w1.rl.acquire rlTimes 1).2 = g := by rw [hacq]
    rw [hrl1, hRL] at h2
    exact h2.symm
  subst hg
  simp only [hacq]
  by_cases hec : env.enable_caching <;> simp [hec, Wrapper._update_quota]

/-- On a cache miss caused by a live but falsy entry, `_make_request`
continues with the post-cache pipeline on an unchanged state. -/
theorem make_request_falsy_miss (env : Env) (w : Wrapper) (now : Nat)
    (rlTimes : List Nat) (req : Except HttpError PyVal) (op : String) (key : String)
    (entry : CacheEntry)
    (hec : env.enable_caching = true)
    (hentry : w.cache.memory_cache.lookup (_generate_cache_key env key) = some entry)
    (hlive : now < entry.expires_at)
    (hfalsy : entry.value.truthy = false) :
    Wrapper._make_request env w now rlTimes req op (some key)
      = Wrapper.mrAfterCache env w now rlTimes req op (some key) := by
  have hcl : cacheLookup env w.cache now (some key) = (w.cache, some entry.value) := by
    unfold cacheLookup CacheManager.get
    rw [hec]
    simp only [Bool.not_true, Bool.false_eq_true, if_false, if_true]
    rw [hentry]
    simp [hlive]
  unfold Wrapper._make_request
  rw [hcl]
  simp [hfalsy]

/-- Every cache hit returned by `_make_request` carries a truthy value. -/
theorem make_request_hit_truthy (env : Env) (w : Wrapper) (now : Nat)
    (rlTimes : List Nat) (req : Except HttpError PyVal) (op : String)
    (ck : Option String) (u : PyVal) :
    (Wrapper._make_request env w now rlTimes req op ck).outcome = MROutcome.hit u →
    u.truthy = true := by
  rcases hcl : cacheLookup env w.cache now ck with ⟨c1, res⟩
  unfold Wrapper._make_request
  rw [hcl]
  cases res with
  | none =>
    intro h
    exact absurd h ((mrAfterCache_used env _ now rlTimes req op ck).1 u)
  | some v =>
    by_cases ht : v.truthy
    · simp only [ht, if_true]
      intro h
      cases h
      exact ht
    · simp only [ht, Bool.false_eq_true, if_false]
      intro h
      exact absurd h ((mrAfterCache_used env _ now rlTimes req op ck).1 u)

/-- C1: when the quota check fails on a cache miss, `_make_request` raises
`QuotaExceededException` with the rate limiter untouched and the upstream
request never executed — quota is the first gate after the cache. -/
theorem quota_gate_blocks_before_rate_limit (env : Env) (w : Wrapper) (now : Nat)
    (rlTimes : List Nat) (req : Except HttpError PyVal) (op : String) (ck : Option String)
    (hMiss : ∀ v, (cacheLookup env w.cache now ck).2 = some v → v.truthy = false)
    (hQ : w.quota_limit < w.postResetUsed now + operationCost op) :
    (Wrapper._make_request env w now rlTimes req op ck).outcome
        = MROutcome.quotaError (YTErr.quotaExceeded "Daily quota limit exceeded")
    ∧ (Wrapper._make_request env w now rlTimes req op ck).w.rl = w.rl
    ∧ (Wrapper._make_request env w now rlTimes req op ck).upstreamCalled = false := by
  rcases hcl : cacheLookup env w.cache now ck with ⟨c1, res⟩
  have hfail := mrAfterCache_quota_fail env { w with cache := c1 } now rlTimes req op ck hQ
  have hrl : (Wrapper._check_quota { w with cache := c1 } now op).1.rl = w.rl :=
    check_quota_rl { w with cache := c1 } now op
  unfold Wrapper._make_request
  rw [hcl]
  dsimp only
  cases res with
  | none => rw [hfail]; exact ⟨rfl, hrl, rfl⟩
  | some v =>
    dsimp only
    have ht : v.truthy = false := hMiss v (by rw [hcl])
    rw [ht]
    simp only [Bool.false_eq_true, if_false]
    rw [hfail]
    exact ⟨rfl, hrl, rfl⟩

theorem quota_gate_blocks_before_rate_limit_witness :
    (Wrapper._make_request env0 w9950 5 [0] (Except.ok (PyVal.int 7)) "search"
        (some "q")).outcome
      = MROutcome.quotaError (YTErr.quotaExceeded "Daily quota limit exceeded")
    ∧ (Wrapper._make_request env0 w9950 5 [0] (Except.ok (PyVal.int 7)) "search"
        (some "q")).w.rl = w9950.rl
    ∧ (Wrapper._make_request env0 w9950 5 [0] (Except.ok (PyVal.int 7)) "search"
        (some "q")).upstreamCalled = false :=
  quota_gate_blocks_before_rate_limit env0 w9950 5 [0] (Except.ok (PyVal.int 7))
    "search" (some "q")
    (fun _ hv => Option.noConfusion hv)
    (by decide)

theorem check_quota_cache (w : Wrapper) (now : Nat) (op : String) :
    (w._check_quota now op).1.cache = w.cache := by
  rw [check_quota_fst]; split_ifs <;> rfl

/-- A wrapper holding one live but falsy cache entry under key `"ytce:k"`. -/
def wCache : Wrapper :=
  { quota_used := 0, quota_reset_time := oneDay, quota_limit := 10000, rl := rl0,
    cache := ⟨[("ytce:k", ⟨PyVal.dict [], 100⟩)]⟩ }

/-- C10: `_make_request` treats a live cache entry with a falsy stored value
(`None`, `{}`, `[]`, `0`, `""`, `False`) as a miss — the full pipeline (quota
check, rate-limit acquisition, upstream call, re-caching) runs — and a cache
hit is ever returned only for a truthy value. -/
theorem falsy_cached_value_is_miss (env : Env) (w : Wrapper) (now : Nat)
    (rlTimes : List Nat) (req : Except HttpError PyVal) (op : String) (key : String)
    (entry : CacheEntry) (v : PyVal)
    (hec : env.enable_caching = true)
    (hentry : w.cache.memory_cache.lookup (_generate_cache_key env key) = some entry)
    (hlive : now < entry.expires_at)
    (hfalsy : entry.value.truthy = false) :
    (∀ u, (Wrapper._make_request env w now rlTimes req op (some key)).outcome
        ≠ MROutcome.hit u)
    ∧ (¬ w.quota_limit < w.postResetUsed now + operationCost op →
       (w.rl.acquire rlTimes 1).2 = true →
       req = Except.ok v →
       (Wrapper._make_request env w now rlTimes req op (some key)).outcome = MROutcome.ok v
       ∧ (Wrapper._make_request env w now rlTimes req op (some key)).upstreamCalled = true
       ∧ (Wrapper._make_request env w now rlTimes req op (some key)).w.quota_used
           = w.postResetUsed now + operationCost op
       ∧ (Wrapper._make_request env w now rlTimes req op (some key)).w.cache
           = (CacheManager.set env w.cache now key v (some env.cache_ttl_seconds)).1)
    ∧ (∀ (env2 : Env) (w2 : Wrapper) (now2 : Nat) (rlT2 : List Nat)
          (req2 : Except HttpError PyVal) (op2 : String) (ck2 : Option String) (u : PyVal),
        (Wrapper._make_request env2 w2 now2 rlT2 req2 op2 ck2).outcome = MROutcome.hit u →
        u.truthy = true) := by
  have hmr := make_request_falsy_miss env w now rlTimes req op key entry hec hentry
    hlive hfalsy
  refine ⟨?_, ?_, ?_⟩
  · intro u
    rw [hmr]
    exact (mrAfterCache_used env w now rlTimes req op (some key)).1 u
  · intro hQ hRL hreq
    subst hreq
    have hs := mrAfterCache_success env w now rlTimes v op key hQ hRL
    rw [hmr]
    refine ⟨hs.1, hs.2.1, ?_, ?_⟩
    · have h2 := (mrAfterCache_used env w now rlTimes (Except.ok v) op (some key)).2.1 v hs.1
      exact h2
    · have hc := hs.2.2 hec
      rw [check_quota_cache] at hc
      exact hc
  · intro env2 w2 now2 rlT2 req2 op2 ck2 u
    exact make_request_hit_truthy env2 w2 now2 rlT2 req2 op2 ck2 u

theorem falsy_cached_value_is_miss_witness :
    (Wrapper._make_request env0 wCache 5 [0] (Except.ok (PyVal.int 7)) "videos"
        (some "k")).outcome = MROutcome.ok (PyVal.int 7)
    ∧ (Wrapper._make_request env0 wCache 5 [0] (Except.ok (PyVal.int 7)) "videos"
        (some "k")).upstreamCalled = true := by
  have h := falsy_cached_value_is_miss env0 wCache 5 [0] (Except.ok (PyVal.int 7))
    "videos" "k" ⟨PyVal.dict [], 100⟩ (PyVal.int 7) rfl rfl (by decide) rfl
  have h2 := h.2.1 (by decide) (by decide) rfl
  exact ⟨h2.1, h2.2.1⟩

/-! ### Rate limiter invariants -/

theorem refill_bounds (s : RateLimiter) (t : Nat) :
    (s._refill_tokens t).config = s.config
    ∧ (s._refill_tokens t).minute_tokens ≤ s.config.calls_per_minute
    ∧ (s._refill_tokens t).hour_tokens ≤ s.config.calls_per_hour
    ∧ (s.burst_tokens ≤ s.config.burst_limit →
        (s._refill_tokens t).burst_tokens ≤ s.config.burst_limit)
    ∧ (0 ≤ s.minute_tokens → 0 ≤ (s._refill_tokens t).minute_tokens)
    ∧ (0 ≤ s.hour_tokens → 0 ≤ (s._refill_tokens t).hour_tokens)
    ∧ (0 ≤ s.burst_tokens → 0 ≤ (s._refill_tokens t).burst_tokens) := by
  unfold RateLimiter._refill_tokens
  dsimp only
  split_ifs <;>
    refine ⟨rfl, ?_, ?_, ?_, ?_, ?_, ?_⟩ <;>
    dsimp only <;> intros <;> omega

theorem refill_inv (s : RateLimiter) (t : Nat) (h : s.Inv) :
    (s._refill_tokens t).Inv := by
  obtain ⟨hc, hm, hh, hb, hm0, hh0, hb0⟩ := refill_bounds s t
  obtain ⟨a1, a2, a3, a4, a5, a6⟩ := h
  unfold RateLimiter.Inv
  rw [hc]
  exact ⟨hm0 a1, hm, hh0 a3, hh, hb0 a5, hb a6⟩

theorem tryStep_inv (s : RateLimiter) (t : Nat) (tokens : Int) (hInv : s.Inv)
    (htok : 0 ≤ tokens) : (s.tryStep t tokens).1.Inv := by
  have hr := refill_inv s t hInv
  unfold RateLimiter.tryStep
  dsimp only
  split_ifs with h
  · unfold RateLimiter.Inv at hr ⊢
    dsimp only
    obtain ⟨a1, a2, a3, a4, a5, a6⟩ := hr
    obtain ⟨b1, b2, b3⟩ := h
    refine ⟨by omega, by omega, by omega, by omega, by omega, by omega⟩
  · exact hr

theorem tryStep_config (s : RateLimiter) (t : Nat) (tokens : Int) :
    (s.tryStep t tokens).1.config = s.config := by
  have hc := (refill_bounds s t).1
  unfold RateLimiter.tryStep
  dsimp only
  split_ifs <;> exact hc

theorem tryStep_cases (s : RateLimiter) (t : Nat) (tok : Int) :
    ((s.tryStep t tok).2 = true →
        tok ≤ (s._refill_tokens t).minute_tokens
        ∧ tok ≤ (s._refill_tokens t).hour_tokens
        ∧ tok ≤ (s._refill_tokens t).burst_tokens
        ∧ (s.tryStep t tok).1.minute_tokens = (s._refill_tokens t).minute_tokens - tok
        ∧ (s.tryStep t tok).1.hour_tokens = (s._refill_tokens t).hour_tokens - tok
        ∧ (s.tryStep t tok).1.burst_tokens = (s._refill_tokens t).burst_tokens - tok)
    ∧ ((s.tryStep t tok).2 = false → (s.tryStep t tok).1 = s._refill_tokens t) := by
  unfold RateLimiter.tryStep
  dsimp only
  split_ifs with h
  · obtain ⟨b1, b2, b3⟩ := h
    exact ⟨fun _ => ⟨b1, b2, b3, rfl, rfl, rfl⟩, fun hf => hf.elim⟩
  · exact ⟨fun hg => hg.elim, fun _ => rfl⟩

theorem acquire_inv (s : RateLimiter) (times : List Nat) (tokens : Int)
    (hInv : s.Inv) (htok : 0 ≤ tokens) : (s.acquire times tokens).1.Inv := by
  induction times generalizing s with
  | nil => exact hInv
  | cons t rest ih =>
    unfold RateLimiter.acquire
    dsimp only
    split_ifs with hg
    · exact tryStep_inv s t tokens hInv htok
    · exact ih _ (tryStep_inv s t tokens hInv htok)

theorem run_inv (s : RateLimiter) (e : RLEvent) (hInv : s.Inv)
    (htok : 0 ≤ e.tokens) : (RLEvent.run s e).Inv := by
  cases e with
  | acq times n => exact acquire_inv s times n hInv htok
  | tryAcq t n => exact tryStep_inv s t n hInv htok

theorem runRLEvents_inv (events : List RLEvent) (s : RateLimiter) (hInv : s.Inv)
    (hev : ∀ e ∈ events, 0 ≤ e.tokens) : (runRLEvents s events).Inv := by
  induction events generalizing s with
  | nil => exact hInv
  | cons e rest ih =>
    exact ih _ (run_inv s e hInv (hev e (List.mem_cons_self e rest)))
      (fun x hx => hev x (List.mem_cons_of_mem e hx))

theorem init_inv (cfg : RateLimitConfig) (t0 : Nat) : (RateLimiter.init cfg t0).Inv := by
  unfold RateLimiter.init RateLimiter.Inv
  refine ⟨?_, ?_, ?_, ?_, ?_, ?_⟩ <;> simp

/-- C3: along any sequence of `acquire`/`try_acquire` calls with non-negative
token requests, every bucket stays within `[0, capacity]`; refilling never
overshoots capacity, and a step deducts — from all three buckets at once —
exactly when all three simultaneously hold the requested amount, leaving the
buckets at their refilled values otherwise. -/
theorem rate_limiter_bucket_bounds (cfg : RateLimitConfig) (t0 : Nat)
    (events : List RLEvent)
    (hev : ∀ e ∈ events, 0 ≤ e.tokens) :
    (runRLEvents (RateLimiter.init cfg t0) events).Inv
    ∧ (∀ (s : RateLimiter) (t : Nat) (tok : Int), s.Inv → 0 ≤ tok →
        (s._refill_tokens t).Inv
        ∧ ((s.tryStep t tok).2 = true →
            tok ≤ (s._refill_tokens t).minute_tokens
            ∧ tok ≤ (s._refill_tokens t).hour_tokens
            ∧ tok ≤ (s._refill_tokens t).burst_tokens
            ∧ (s.tryStep t tok).1.minute_tokens = (s._refill_tokens t).minute_tokens - tok
            ∧ (s.tryStep t tok).1.hour_tokens = (s._refill_tokens t).hour_tokens - tok
            ∧ (s.tryStep t tok).1.burst_tokens = (s._refill_tokens t).burst_tokens - tok)
        ∧ ((s.tryStep t tok).2 = false → (s.tryStep t tok).1 = s._refill_tokens t)
        ∧ (s.tryStep t tok).1.Inv) := by
  refine ⟨runRLEvents_inv events _ (init_inv cfg t0) hev, ?_⟩
  intro s t tok hInv htok
  exact ⟨refill_inv s t hInv, (tryStep_cases s t tok).1, (tryStep_cases s t tok).2,
    tryStep_inv s t tok hInv htok⟩

/-- A sample call sequence for the bucket-bounds witness. -/
def rlEventsSample : List RLEvent :=
  [RLEvent.acq [0, 1] 1, RLEvent.tryAcq 2 3, RLEvent.acq [3] 100, RLEvent.tryAcq 4 0]

theorem rate_limiter_bucket_bounds_witness :
    RateLimiter.Inv (runRLEvents (RateLimiter.init cfg0 0) rlEventsSample) :=
  (rate_limiter_bucket_bounds cfg0 0 rlEventsSample (by decide)).1

/-- C5 counterexample: a request for 11 tokens (over the default burst
capacity of 10) runs 100 loop iterations without being granted — and without
any explicit rejection, since the loop's only exit is a grant: the call is
still blocked, not returned or raised. -/
theorem over_capacity_request_neither_granted_nor_rejected :
    (rl0.acquire (List.range 100) 11).2 = false
    ∧ ((rl0.config.burst_limit : Int) < 11) := by
  constructor
  · decide
  · decide

/-- C5 (amended): a request for more tokens than some bucket's capacity never
succeeds, but it is not rejected explicitly either: `acquire` loops (refill,
check, sleep) forever, never granting and never returning or raising. -/
theorem over_capacity_acquire_never_granted (s : RateLimiter) (times : List Nat)
    (tokens : Int) (hInv : s.Inv)
    (hover : (s.config.calls_per_minute : Int) < tokens
      ∨ (s.config.calls_per_hour : Int) < tokens
      ∨ (s.config.burst_limit : Int) < tokens) :
    (s.acquire times tokens).2 = false := by
  induction times generalizing s with
  | nil => rfl
  | cons t rest ih =>
    have hr := refill_inv s t hInv
    have hc := (refill_bounds s t).1
    have hnogrant : (s.tryStep t tokens).2 = false := by
      unfold RateLimiter.tryStep
      dsimp only
      split_ifs with h
      · exfalso
        obtain ⟨b1, b2, b3⟩ := h
        unfold RateLimiter.Inv at hr
        rw [hc] at hr
        rcases hover with ho | ho | ho <;> omega
      · rfl
    unfold RateLimiter.acquire
    dsimp only
    rw [hnogrant]
    simp only [Bool.false_eq_true, if_false]
    have hover2 : ((s.tryStep t tokens).1.config.calls_per_minute : Int) < tokens
        ∨ ((s.tryStep t tokens).1.config.calls_per_hour : Int) < tokens
        ∨ ((s.tryStep t tokens).1.config.burst_limit : Int) < tokens := by
      rw [tryStep_config]
      exact hover
    exact ih _ (tryStep_inv s t tokens hInv (by rcases hover with h | h | h <;> omega)) hover2

theorem over_capacity_acquire_never_granted_witness :
    (rl0.acquire [0, 1, 2] 11).2 = false :=
  over_capacity_acquire_never_granted rl0 [0, 1, 2] 11 (by decide) (by decide)

/-! ### ID batching -/

theorem chunks50Aux_flatten (fuel : Nat) (l : List String) (h : l.length ≤ fuel) :
    (chunks50Aux fuel l).flatten = l := by
  induction fuel generalizing l with
  | zero =>
    have hl : l = [] := List.length_eq_zero.mp (Nat.le_zero.mp h)
    subst hl
    rfl
  | succ fuel ih =>
    cases l with
    | nil => rfl
    | cons a as =>
      simp only [chunks50Aux, List.flatten_cons]
      rw [ih _ (by rw [List.length_drop]; simp only [List.length_cons] at h ⊢; omega)]
      exact List.take_append_drop 50 (a :: as)

theorem chunks50Aux_count (fuel : Nat) (l : List String) (h : l.length ≤ fuel) :
    (chunks50Aux fuel l).length = (l.length + 49) / 50 := by
  induction fuel generalizing l with
  | zero =>
    have hl : l = [] := List.length_eq_zero.mp (Nat.le_zero.mp h)
    subst hl
    decide
  | succ fuel ih =>
    cases l with
    | nil => exact (by decide : (0 : Nat) = (0 + 49) / 50)
    | cons a as =>
      simp only [chunks50Aux, List.length_cons]
      rw [ih _ (by rw [List.length_drop]; simp only [List.length_cons] at h ⊢; omega)]
      rw [List.length_drop]
      simp only [List.length_cons]
      omega

theorem chunks50Aux_mem (fuel : Nat) (l : List String) (h : l.length ≤ fuel) :
    ∀ c ∈ chunks50Aux fuel l, c.length ≤ 50 ∧ c ≠ [] := by
  induction fuel generalizing l with
  | zero =>
    have hl : l = [] := List.length_eq_zero.mp (Nat.le_zero.mp h)
    subst hl
    intro c hc
    simp [chunks50Aux] at hc
  | succ fuel ih =>
    cases l with
    | nil => intro c hc; simp [chunks50Aux] at hc
    | cons a as =>
      intro c hc
      simp only [chunks50Aux, List.mem_cons] at hc
      rcases hc with rfl | hc
      · refine ⟨by simp, by simp⟩
      · exact ih _ (by rw [List.length_drop]; simp only [List.length_cons] at h ⊢; omega) c hc

theorem batch_fold (call : List String → List PyVal) (cs : List (List String))
    (h : ∀ c ∈ cs, c.length ≤ 50 ∧ c ≠ []) (n : Nat) (acc : List PyVal) :
    cs.foldl (fun acc batch_ids =>
        let r := get_video_details call batch_ids
        (acc.1 + r.1, acc.2 ++ r.2)) (n, acc)
      = (n + cs.length, acc ++ (cs.map call).flatten) := by
  induction cs generalizing n acc with
  | nil => simp
  | cons c cs ih =>
    have hc := h c (List.mem_cons_self c cs)
    have hgvd : get_video_details call c = (1, call c) := by
      unfold get_video_details
      rw [if_neg (by simpa [List.isEmpty_iff] using hc.2)]
      rw [List.take_of_length_le hc.1]
    simp only [List.foldl_cons, hgvd]
    rw [ih (fun x hx => h x (List.mem_cons_of_mem c hx))]
    simp only [List.map_cons, List.flatten_cons, List.length_cons, Prod.mk.injEq]
    exact ⟨by omega, by rw [List.append_assoc]⟩

set_option maxRecDepth 8192 in
/-- C9: `batch_get_video_details` splits the ID list into consecutive chunks
of at most 50, issues exactly `⌈n/50⌉` orchestrated sub-calls (none for the
empty list, and chunks 50/50/37 for 137 IDs), and concatenates the per-chunk
results in input (chunk) order. -/
theorem batch_video_details_chunking (call : List String → List PyVal)
    (video_ids : List String) :
    (batch_get_video_details call video_ids).1 = (video_ids.length + 49) / 50
    ∧ (batch_get_video_details call video_ids).2
        = ((chunks50 video_ids).map call).flatten
    ∧ (chunks50 video_ids).flatten = video_ids
    ∧ ((chunks50 video_ids).all fun c => decide (c.length ≤ 50) && !c.isEmpty) = true
    ∧ (chunks50 (List.replicate 137 "v")).map List.length = [50, 50, 37]
    ∧ batch_get_video_details call [] = (0, []) := by
  have hprops := chunks50Aux_mem video_ids.length video_ids (le_refl _)
  have hfold := batch_fold call (chunks50 video_ids) hprops 0 []
  refine ⟨?_, ?_, chunks50Aux_flatten _ _ (le_refl _), ?_, by decide, rfl⟩
  · unfold batch_get_video_details
    rw [hfold]
    simpa using chunks50Aux_count video_ids.length video_ids (le_refl _)
  · unfold batch_get_video_details
    rw [hfold]
    simp
  · rw [List.all_eq_true]
    intro c hc
    have hcp := hprops c hc
    simp [hcp.1, hcp.2, List.isEmpty_iff]

/-! ### Cache size bound and eviction order -/

theorem length_filter_split (p q : α → Bool) (hq : ∀ a, q a = !(p a)) (l : List α) :
    (l.filter p).length + (l.filter q).length = l.length := by
  induction l with
  | nil => rfl
  | cons a as ih =>
    rcases hpa : p a with _ | _ <;>
      simp [List.filter_cons, hpa, hq a, ← ih] <;> omega

/-- The entries evicted by the size-limit branch all expire no later than any
kept entry. -/
theorem evict_kept_order (live : List (String × CacheEntry)) (n : Nat) :
    ∀ kv ∈ (live.insertionSort entryLE).take n,
    ∀ kv' ∈ live.filter (fun kv' =>
        !((((live.insertionSort entryLE).take n).map Prod.fst).contains kv'.1)),
    kv.2.expires_at ≤ kv'.2.expires_at := by
  intro kv hkv kv' hkv'
  have hs : List.Sorted entryLE (live.insertionSort entryLE) :=
    List.sorted_insertionSort entryLE live
  have hcross := (List.pairwise_append.mp
    (by rw [List.take_append_drop n (live.insertionSort entryLE)]; exact hs)).2.2
  have hmem := List.mem_filter.mp hkv'
  have hkv'sorted : kv' ∈ live.insertionSort entryLE :=
    ((List.perm_insertionSort entryLE live).mem_iff).mpr hmem.1
  have hsplit : kv' ∈ (live.insertionSort entryLE).take n
      ++ (live.insertionSort entryLE).drop n := by
    rw [List.take_append_drop]
    exact hkv'sorted
  rcases List.mem_append.mp hsplit with htake | hdrop
  · exfalso
    have hin : kv'.1 ∈ ((live.insertionSort entryLE).take n).map Prod.fst :=
      List.mem_map_of_mem Prod.fst htake
    exact absurd (List.elem_iff.mpr hin) (by simpa using hmem.2)
  · exact hcross kv hkv kv' hdrop

/-- With unique keys and the tier at or above the bound, the kept entries
number strictly fewer than the bound. -/
theorem evict_kept_bound (maxSize : Nat) (live : List (String × CacheEntry))
    (hn : (live.map Prod.fst).Nodup) (hmax : 1 ≤ maxSize) (hge : maxSize ≤ live.length) :
    (live.filter (fun kv =>
        !((((live.insertionSort entryLE).take (live.length - maxSize + 1)).map
            Prod.fst).contains kv.1))).length < maxSize := by
  have hlivenodup : live.Nodup := List.Nodup.of_map Prod.fst hn
  have hsortednodup : (live.insertionSort entryLE).Nodup :=
    ((List.perm_insertionSort entryLE live).nodup_iff).mpr hlivenodup
  have htakenodup : ((live.insertionSort entryLE).take (live.length - maxSize + 1)).Nodup :=
    hsortednodup.sublist (List.take_sublist _ _)
  have hsub : ((live.insertionSort entryLE).take (live.length - maxSize + 1))
      ⊆ live.filter (fun kv =>
          (((live.insertionSort entryLE).take (live.length - maxSize + 1)).map
            Prod.fst).contains kv.1) := by
    intro x hx
    refine List.mem_filter.mpr ⟨?_, ?_⟩
    · exact ((List.perm_insertionSort entryLE live).mem_iff).mp (List.mem_of_mem_take hx)
    · exact List.elem_iff.mpr (List.mem_map_of_mem Prod.fst hx)
  have hlen1 := (List.subperm_of_subset htakenodup hsub).length_le
  have hlen2 : ((live.insertionSort entryLE).take (live.length - maxSize + 1)).length
      = live.length - maxSize + 1 := by
    rw [List.length_take]
    have hsl : (live.insertionSort entryLE).length = live.length :=
      (List.perm_insertionSort entryLE live).length_eq
    omega
  have hsplit := length_filter_split
    (fun kv => (((live.insertionSort entryLE).take (live.length - maxSize + 1)).map
        Prod.fst).contains kv.1)
    (fun kv => !((((live.insertionSort entryLE).take (live.length - maxSize + 1)).map
        Prod.fst).contains kv.1))
    (fun _ => rfl) live
  omega

theorem cleanup_order (env : Env) (c : CacheManager) (now : Nat) :
    ∀ kv ∈ (CacheManager._cleanup_memory_cache env c now).2,
    ∀ kv' ∈ (CacheManager._cleanup_memory_cache env c now).1.memory_cache,
    kv.2.expires_at ≤ kv'.2.expires_at := by
  unfold CacheManager._cleanup_memory_cache
  dsimp only
  split_ifs with hge
  · exact evict_kept_order _ _
  · intro kv hkv
    simp at hkv

theorem cleanup_wf (env : Env) (c : CacheManager) (now : Nat) (hWF : c.WF) :
    (CacheManager._cleanup_memory_cache env c now).1.WF := by
  unfold CacheManager._cleanup_memory_cache CacheManager.WF
  dsimp only
  split_ifs with hge
  · exact hWF.sublist
      (((List.filter_sublist _).trans (List.filter_sublist _)).map Prod.fst)
  · exact hWF.sublist ((List.filter_sublist _).map Prod.fst)

theorem cleanup_length_lt (env : Env) (c : CacheManager) (now : Nat)
    (hWF : c.WF) (hmax : 1 ≤ env.cache_max_size) :
    (CacheManager._cleanup_memory_cache env c now).1.memory_cache.length
      < env.cache_max_size := by
  have hlivewf : ((c.memory_cache.filter
      (fun kv => decide (now < kv.2.expires_at))).map Prod.fst).Nodup :=
    hWF.sublist ((List.filter_sublist _).map Prod.fst)
  unfold CacheManager._cleanup_memory_cache
  dsimp only
  split_ifs with hge
  · exact evict_kept_bound env.cache_max_size _ hlivewf hmax hge
  · dsimp only
    omega

theorem assocSet_wf (l : List (String × CacheEntry)) (k : String) (e : CacheEntry)
    (h : (l.map Prod.fst).Nodup) : ((assocSet l k e).map Prod.fst).Nodup := by
  unfold assocSet
  split_ifs with hany
  · have heq : (l.map (fun kv => if kv.1 == k then (k, e) else kv)).map Prod.fst
        = l.map Prod.fst := by
      rw [List.map_map]
      refine List.map_congr_left ?_
      intro kv _
      by_cases hk : kv.1 == k
      · simp only [Function.comp, hk, if_true]
        exact (eq_of_beq hk).symm
      · simp [Function.comp, hk]
    rw [heq]
    exact h
  · rw [List.map_append]
    refine List.Nodup.append h (List.nodup_singleton k) ?_
    intro a ha hb
    simp only [List.map_cons, List.map_nil, List.mem_singleton] at hb
    subst hb
    apply hany
    rw [List.any_eq_true]
    rcases List.mem_map.mp ha with ⟨kv, hkv, hfst⟩
    exact ⟨kv, hkv, by simp [hfst]⟩

theorem assocSet_length (l : List (String × CacheEntry)) (k : String) (e : CacheEntry) :
    (assocSet l k e).length ≤ l.length + 1 := by
  unfold assocSet
  split_ifs <;> simp

theorem set_wf (env : Env) (c : CacheManager) (now : Nat) (key : String)
    (value : PyVal) (ttl : Option Nat) (hWF : c.WF) :
    (CacheManager.set env c now key value ttl).1.WF := by
  unfold CacheManager.set
  dsimp only
  split_ifs with hec
  · exact hWF
  · exact assocSet_wf _ _ _ (cleanup_wf env c now hWF)

theorem set_length_le (env : Env) (c : CacheManager) (now : Nat) (key : String)
    (value : PyVal) (ttl : Option Nat) (hWF : c.WF)
    (hmax : 1 ≤ env.cache_max_size)
    (hlen : c.memory_cache.length ≤ env.cache_max_size) :
    (CacheManager.set env c now key value ttl).1.memory_cache.length
      ≤ env.cache_max_size := by
  unfold CacheManager.set
  dsimp only
  split_ifs with hec
  · exact hlen
  · have h1 := cleanup_length_lt env c now hWF hmax
    exact le_trans (assocSet_length _ _ _) (by omega)

theorem runSets_wf_len (env : Env) (hmax : 1 ≤ env.cache_max_size) (ops : List SetOp) :
    (runSets env CacheManager.init ops).WF
    ∧ (runSets env CacheManager.init ops).memory_cache.length ≤ env.cache_max_size := by
  suffices h : ∀ c : CacheManager, c.WF → c.memory_cache.length ≤ env.cache_max_size →
      (runSets env c ops).WF
      ∧ (runSets env c ops).memory_cache.length ≤ env.cache_max_size by
    exact h CacheManager.init List.nodup_nil (by simp [CacheManager.init])
  induction ops with
  | nil => exact fun c h1 h2 => ⟨h1, h2⟩
  | cons op rest ih =>
    intro c h1 h2
    have hstep := ih (CacheManager.set env c op.now op.key op.value op.ttl).1
      (set_wf env c op.now op.key op.value op.ttl h1)
      (set_length_le env c op.now op.key op.value op.ttl h1 hmax h2)
    simpa [runSets, List.foldl_cons] using hstep

/-- C7: starting from an empty cache, no sequence of `set` calls ever grows
the in-process tier past `cache_max_size` (given a positive bound), and
whenever the cleanup evicts for size, every evicted entry expires no later
than every retained entry. -/
theorem cache_size_bound_and_soonest_eviction (env : Env)
    (hmax : 1 ≤ env.cache_max_size) (ops : List SetOp) :
    (runSets env CacheManager.init ops).WF
    ∧ (runSets env CacheManager.init ops).memory_cache.length ≤ env.cache_max_size
    ∧ (∀ (c : CacheManager) (now : Nat),
        ∀ kv ∈ (CacheManager._cleanup_memory_cache env c now).2,
        ∀ kv' ∈ (CacheManager._cleanup_memory_cache env c now).1.memory_cache,
        kv.2.expires_at ≤ kv'.2.expires_at) := by
  refine ⟨(runSets_wf_len env hmax ops).1, (runSets_wf_len env hmax ops).2, ?_⟩
  intro c now
  exact cleanup_order env c now

/-- A sample `set` sequence for the size-bound witness. -/
def setOpsSample : List SetOp :=
  [⟨0, "a", PyVal.int 1, Option.none⟩, ⟨1, "b", PyVal.int 2, some 5⟩,
   ⟨2, "a", PyVal.str "x", Option.none⟩, ⟨3, "c", PyVal.none, some 9⟩]

theorem cache_size_bound_and_soonest_eviction_witness :
    (runSets env0 CacheManager.init setOpsSample).memory_cache.length
      ≤ env0.cache_max_size :=
  (cache_size_bound_and_soonest_eviction env0 (by decide) setOpsSample).2.1

end YTCE
